import Mathlib

/-!
Shallow embedding of the secret-scanning server (`server.py`): the pattern
registry, the masking policy, the scan engine, the directory traversal, the
smart-scan dispatcher and the key-validation engine, together with theorems
checking the specification's claims against these definitions.

Text is modelled as `List Char`.  The five regular expressions of `PATTERNS`
are deterministic (no alternative admits more than one way to match at a
given start position), so each is embedded as an explicit matcher computing
the unique Python-`re` match at a position; `findIter` reproduces
`re.finditer`: leftmost scan, greedy, non-overlapping, resuming after each
match.
-/

namespace MCPSec

/-! ### Character classes of the regexes -/

/-- Class `[a-zA-Z0-9-]` (used by the OpenAI and Azure-endpoint regexes). -/
def isAlnumDash (c : Char) : Bool :=
  decide (('a' ≤ c ∧ c ≤ 'z') ∨ ('A' ≤ c ∧ c ≤ 'Z') ∨ ('0' ≤ c ∧ c ≤ '9') ∨ c = '-')

/-- Class `[a-zA-Z0-9\-_]` (used by the Anthropic and Gemini regexes). -/
def isAlnumDashUnd (c : Char) : Bool :=
  isAlnumDash c || c == '_'

/-- Class `[a-fA-F0-9]` of the Azure-key regex. -/
def isHexCh (c : Char) : Bool :=
  decide (('0' ≤ c ∧ c ≤ '9') ∨ ('a' ≤ c ∧ c ≤ 'f') ∨ ('A' ≤ c ∧ c ≤ 'F'))

/-- Python regex `\s`: space, tab, newline, carriage return, vertical tab, form feed. -/
def isPySpace (c : Char) : Bool :=
  decide (c = ' ' ∨ c = Char.ofNat 9 ∨ c = Char.ofNat 10 ∨ c = Char.ofNat 13 ∨
          c = Char.ofNat 11 ∨ c = Char.ofNat 12)

/-- Quote class of the Azure-key regex: a single or a double quote. -/
def isQuoteCh (c : Char) : Bool :=
  decide (c = Char.ofNat 39 ∨ c = Char.ofNat 34)

/-! ### Generic matching machinery -/

/-- Length of the maximal run of characters satisfying `cls` at the head of
the list — the text a greedy `cls*` (or `cls{n,}`) consumes. -/
def classRun (cls : Char → Bool) : List Char → Nat
  | [] => 0
  | c :: rest => if cls c then classRun cls rest + 1 else 0

/-- Strip the literal `lit` from the head of `s`; `some` of the remainder on
success, `none` when `s` does not start with `lit`. -/
def dropLit : List Char → List Char → Option (List Char)
  | [], s => some s
  | _, [] => none
  | a :: as, b :: bs => if a = b then dropLit as bs else none

/-- Match, at the head of `s`, a regex of shape `lit cls{mn,}` (literal
followed by a greedy run of at least `mn` class characters).  Returns
`some (consumed length, group 0 text)`. -/
def matchSimple (lit : List Char) (cls : Char → Bool) (mn : Nat) (s : List Char) :
    Option (Nat × List Char) :=
  match dropLit lit s with
  | none => none
  | some rest =>
    let r := classRun cls rest
    if mn ≤ r then some (lit.length + r, s.take (lit.length + r)) else none

/-- One step of `re.finditer`: try the matcher at each position from left to
right; on a match emit `(start, captured value)` and resume right after the
matched text.  `fuel` bounds the recursion (each step consumes at least one
character of `s`, so `s.length` fuel suffices). -/
def scanFrom (m : List Char → Option (Nat × List Char)) :
    Nat → List Char → Nat → List (Nat × List Char)
  | 0, _, _ => []
  | _ + 1, [], _ => []
  | fuel + 1, s@(_ :: rest), pos =>
    match m s with
    | some (len, raw) => (pos, raw) :: scanFrom m fuel (s.drop len) (pos + len)
    | none => scanFrom m fuel rest (pos + 1)

/-- All matches of `m` in `s`, as `(start position, captured value)` pairs in
the order `re.finditer` yields them. -/
def findIter (m : List Char → Option (Nat × List Char)) (s : List Char) :
    List (Nat × List Char) :=
  scanFrom m s.length s 0

/-! ### The five matchers of `PATTERNS` -/

/-- Regex `sk-[a-zA-Z0-9-]{40,}`, group 0 (provider OpenAI). -/
def matchOpenAI (s : List Char) : Option (Nat × List Char) :=
  matchSimple "sk-".data isAlnumDash 40 s

/-- Regex `sk-ant-api03-[a-zA-Z0-9\-_]{50,}`, group 0 (provider Anthropic). -/
def matchAnthropic (s : List Char) : Option (Nat × List Char) :=
  matchSimple "sk-ant-api03-".data isAlnumDashUnd 50 s

/-- Regex `AIzaSy[a-zA-Z0-9\-_]{30,}`, group 0 (provider Google Gemini). -/
def matchGemini (s : List Char) : Option (Nat × List Char) :=
  matchSimple "AIzaSy".data isAlnumDashUnd 30 s

/-- One alternative `w[-_]key` of the Azure-key name group: returns the
consumed length (`w.length + 4`) when it matches at the head of `s`. -/
def azureNameAlt (w : List Char) (s : List Char) : Option Nat :=
  match dropLit w s with
  | some (c :: rest) =>
    if c = '-' ∨ c = '_' then
      match dropLit "key".data rest with
      | some _ => some (w.length + 4)
      | none => none
    else none
  | _ => none

/-- The group `(?:api[-_]key|subscription[-_]key|azure[-_]key)`: the three
alternatives are mutually exclusive at any position, tried left to right. -/
def azureName (s : List Char) : Option Nat :=
  match azureNameAlt "api".data s with
  | some n => some n
  | none =>
    match azureNameAlt "subscription".data s with
    | some n => some n
    | none => azureNameAlt "azure".data s

/-- Regex `(?:api[-_]key|subscription[-_]key|azure[-_]key)\s*[:=]\s*['\x22]([a-fA-F0-9]{32})['\x22]`,
group 1 (provider Azure OpenAI Key): name, optional spaces, `:` or `=`,
optional spaces, a quote, exactly 32 hex characters (the captured value), a
quote. -/
def matchAzureKey (s : List Char) : Option (Nat × List Char) :=
  match azureName s with
  | none => none
  | some n =>
    let s1 := s.drop n
    let w1 := classRun isPySpace s1
    match s1.drop w1 with
    | [] => none
    | c :: s2 =>
      if c = ':' ∨ c = '=' then
        let w2 := classRun isPySpace s2
        match s2.drop w2 with
        | [] => none
        | q1 :: s3 =>
          if isQuoteCh q1 then
            let hex := s3.take 32
            if hex.length = 32 ∧ hex.all isHexCh then
              match s3.drop 32 with
              | q2 :: _ =>
                if isQuoteCh q2 then some (n + w1 + 1 + w2 + 1 + 32 + 1, hex) else none
              | [] => none
            else none
          else none
      else none

/-- Regex `https://[a-zA-Z0-9\-]+\.openai\.azure\.com/?`, group 0 (provider
Azure Endpoint). -/
def matchAzureEndpoint (s : List Char) : Option (Nat × List Char) :=
  match dropLit "https://".data s with
  | none => none
  | some s1 =>
    let r := classRun isAlnumDash s1
    if r = 0 then none
    else
      match dropLit ".openai.azure.com".data (s1.drop r) with
      | none => none
      | some s2 =>
        let extra : Nat := match s2 with
          | c :: _ => if c = '/' then 1 else 0
          | [] => 0
        let len := 8 + r + 17 + extra
        some (len, s.take len)

/-! ### The pattern registry and the scan engine -/

/-- The keys of the `PATTERNS` dictionary, one per detection rule. -/
inductive Provider where
  | openai
  | anthropic
  | gemini
  | azureKey
  | azureEndpoint
deriving DecidableEq

/-- Display name of each provider — the dictionary key in `PATTERNS`. -/
def providerName : Provider → String
  | .openai => "OpenAI"
  | .anthropic => "Anthropic"
  | .gemini => "Google Gemini"
  | .azureKey => "Azure OpenAI Key"
  | .azureEndpoint => "Azure Endpoint"

/-- The matcher embedding each provider's regex together with its configured
capture group (group 1 for the Azure key, group 0 elsewhere). -/
def providerMatcher : Provider → (List Char → Option (Nat × List Char))
  | .openai => matchOpenAI
  | .anthropic => matchAnthropic
  | .gemini => matchGemini
  | .azureKey => matchAzureKey
  | .azureEndpoint => matchAzureEndpoint

/-- Iteration order of `PATTERNS.items()` — Python dict insertion order. -/
def PATTERNS_ORDER : List Provider :=
  [.openai, .anthropic, .gemini, .azureKey, .azureEndpoint]

/-- The masking policy `mask_value`: strings of length at most 12 are
returned unchanged, longer ones become the first 8 characters, a literal
`...`, and the last 4 characters. -/
def mask_value (v : List Char) : List Char :=
  if v.length ≤ 12 then v
  else v.take 8 ++ "...".data ++ v.drop (v.length - 4)

/-- One finding of `perform_scan`: provider name, source label, masked and
raw captured value. -/
structure Finding where
  provider : String
  file : String
  masked_value : List Char
  raw_value : List Char
deriving DecidableEq

/-- All matches of one provider's rule across `text`, in `re.finditer`
order. -/
def provider_matches (p : Provider) (text : List Char) : List (Nat × List Char) :=
  findIter (providerMatcher p) text

/-- `perform_scan` instrumented with match-start offsets: for each provider
in registry order, every match as `(provider name, start offset, raw value)`,
in the order the nested loops of `perform_scan` emit them. -/
def perform_scan_pos (text : List Char) : List (String × Nat × List Char) :=
  PATTERNS_ORDER.flatMap fun p =>
    (provider_matches p text).map fun m => (providerName p, m.1, m.2)

/-- The scan engine `perform_scan(text, filename)`: for each rule of
`PATTERNS` in order, every `re.finditer` match yields a finding carrying the
provider, the filename, the masked value and the raw captured value. -/
def perform_scan (text : List Char) (filename : String) : List Finding :=
  (perform_scan_pos text).map fun x =>
    { provider := x.1, file := filename, masked_value := mask_value x.2.2,
      raw_value := x.2.2 }

/-! ### Directory traversal (`scan_directory`) -/

/-- The `SCAN_EXTENSIONS` tuple: recognized file-name suffixes. -/
def SCAN_EXTENSIONS : List (List Char) :=
  [".py".data, ".js".data, ".ts".data, ".json".data, ".env".data,
   ".yaml".data, ".yml".data, ".txt".data, ".ini".data, ".md".data]

/-- The directory names pruned by `scan_directory`'s walk:
`dirs[:] = [d for d in dirs if d not in set]` with the set written in the
source. -/
def EXCLUDED_DIRS : List (List Char) :=
  [".git".data, "node_modules".data, "venv".data]

mutual

/-- A modelled filesystem entry: a file whose read either succeeds with its
decoded text or raises with an exception message, or a directory listing
child entries in `os.listdir` order. -/
inductive Entry where
  | file (name : List Char) (content : Except (List Char) (List Char)) : Entry
  | dir (name : List Char) (children : EntryList) : Entry

/-- A directory listing, in `os.listdir` order. -/
inductive EntryList where
  | nil : EntryList
  | cons (e : Entry) (rest : EntryList) : EntryList

end

/-- Build a listing from a `List` of entries, preserving order. -/
def EntryList.ofList : List Entry → EntryList
  | [] => .nil
  | e :: es => .cons e (EntryList.ofList es)

/-- One element of the aggregated `all_findings` list: either a finding dict
or the `error` dict appended on a read failure. -/
inductive ScanEntry where
  | finding (f : Finding)
  | readError (msg : List Char)
deriving DecidableEq

/-- `os.path.relpath(os.path.join(root, name), base_path)` for a walk rooted
at `base_path`: the path of the enclosing directory relative to the root
(`pre`, empty at the root itself) joined with `name` by a `/`. -/
def joinRel (pre name : List Char) : List Char :=
  if pre = [] then name else pre ++ "/".data ++ name

/-- The `file.endswith(SCAN_EXTENSIONS)` filter. -/
def extOk (name : List Char) : Bool :=
  SCAN_EXTENSIONS.any fun e => e.isSuffixOf name

/-- Processing of one regular file by the walk body: skipped when its name
has no recognized extension; otherwise its content is scanned with the
root-relative path as label, and a read failure appends an error entry
mentioning only the base name. -/
def scanFile (pre name : List Char) (content : Except (List Char) (List Char)) :
    List ScanEntry :=
  if extOk name then
    match content with
    | .ok text => (perform_scan text (String.mk (joinRel pre name))).map .finding
    | .error e =>
      [.readError ("Read error in ".data ++ name ++ ": ".data ++ e)]
  else []

/-- The file half of one `os.walk` step: the files of the current directory,
in listing order (directories are handled by the recursive half). -/
def walkFiles (pre : List Char) : EntryList → List ScanEntry
  | .nil => []
  | .cons (.file n c) rest => scanFile pre n c ++ walkFiles pre rest
  | .cons (.dir _ _) rest => walkFiles pre rest

mutual

/-- Contribution of one entry to the recursive half of an `os.walk` step:
files contribute nothing here, a pruned directory is skipped entirely, and
any other directory is walked (its own files first, then its
subdirectories). -/
def walkDirEntry (pre : List Char) : Entry → List ScanEntry
  | .file _ _ => []
  | .dir n cs =>
    if n ∈ EXCLUDED_DIRS then []
    else walkFiles (joinRel pre n) cs ++ walkDirs (joinRel pre n) cs

/-- The recursive half of one `os.walk` step: after the current directory's
files, each subdirectory surviving the pruning is walked in listing order. -/
def walkDirs (pre : List Char) : EntryList → List ScanEntry
  | .nil => []
  | .cons e rest => walkDirEntry pre e ++ walkDirs pre rest

end

/-- The aggregated `all_findings` list of `scan_directory` over an existing
root directory with listing `es`. -/
def walkAll (es : EntryList) : List ScanEntry :=
  walkFiles [] es ++ walkDirs [] es

/-- The report `scan_directory` serializes: `total` is the length of the
aggregated `all_findings` list, `findings` the list itself. -/
structure DirReport where
  total : Nat
  findings : List ScanEntry
deriving DecidableEq

/-- `scan_directory(path)` on an existing root modelled by listing `es`. -/
def scan_directory (es : EntryList) : DirReport :=
  { total := (walkAll es).length, findings := walkAll es }

/-! ### Instrumented traversal: which files are opened -/

/-- Root-relative paths of the files the walk body opens in one directory:
`open` is reached exactly for the files passing the extension filter. -/
def openedFiles (pre : List Char) : EntryList → List (List Char)
  | .nil => []
  | .cons (.file n _) rest =>
    (if extOk n then [joinRel pre n] else []) ++ openedFiles pre rest
  | .cons (.dir _ _) rest => openedFiles pre rest

mutual

/-- Files opened inside one entry during the recursive half of an `os.walk`
step, mirroring `walkDirEntry`. -/
def openedDirEntry (pre : List Char) : Entry → List (List Char)
  | .file _ _ => []
  | .dir n cs =>
    if n ∈ EXCLUDED_DIRS then []
    else openedFiles (joinRel pre n) cs ++ openedDirs (joinRel pre n) cs

/-- Files opened inside the subdirectories of one `os.walk` step, mirroring
`walkDirs`. -/
def openedDirs (pre : List Char) : EntryList → List (List Char)
  | .nil => []
  | .cons e rest => openedDirEntry pre e ++ openedDirs pre rest

end

/-- All root-relative paths of files `scan_directory` opens on a root with
listing `es`. -/
def openedAll (es : EntryList) : List (List Char) :=
  openedFiles [] es ++ openedDirs [] es

/-! ### `smart_scan` -/

/-- Python `str.lower()` on an ASCII character. -/
def pyLowerChar (c : Char) : Char :=
  if 'A' ≤ c ∧ c ≤ 'Z' then Char.ofNat (c.toNat + 32) else c

/-- Does `small` occur as a contiguous substring of `s` (Python `in`)? -/
def hasSub (small : List Char) : List Char → Bool
  | [] => (dropLit small []).isSome
  | s@(_ :: rest) => (dropLit small s).isSome || hasSub small rest

/-- The dispatch test of `smart_scan`: `"github.com" in target.lower()`. -/
def containsGithub (target : String) : Bool :=
  hasSub "github.com".data (target.data.map pyLowerChar)

/-- Result of `smart_scan`: the remote-branch success payload, the
remote-branch error payload, or the delegated `scan_directory` report. -/
inductive SmartResult where
  | remote (findings : List Finding)
  | fetchFailed (msg : String)
  | localScan (report : DirReport)
deriving DecidableEq

/-- `smart_scan(target)`: when the lowercased target contains `github.com`,
sample the agent for the file's text (`sample` models the outcome: the
returned content, or the exception message of a failed sampling call); empty
or short content is reported as a fetch failure, otherwise the content is
scanned with the target as label.  Any other target is delegated to
`scan_directory`, modelled by the listing `fs` of the local path. -/
def smart_scan (target : String) (sample : Except String (List Char))
    (fs : EntryList) : SmartResult :=
  if containsGithub target then
    match sample with
    | .error e => .fetchFailed e
    | .ok content =>
      if content = [] ∨ content.length < 10 then
        .fetchFailed "Failed to fetch remote content."
      else
        .remote (perform_scan content target)
  else
    .localScan (scan_directory fs)

/-! ### `validate_key` -/

/-- One outbound HTTP GET issued by `validate_key`. -/
structure Request where
  url : String
  headers : List (String × String)
deriving DecidableEq

/-- The serialized outcome of `validate_key`: the success dict with
`is_valid` and `status`, or one of the `error` dicts. -/
inductive VKResult where
  | result (provider : String) (is_valid : Bool) (status : Nat)
  | error (msg : String)
deriving DecidableEq

/-- Python `str.rstrip("/")`: drop every trailing slash. -/
def rstripSlash (s : String) : String :=
  String.mk ((s.data.reverse.dropWhile fun c => c = '/').reverse)

/-- The message of the error dict returned for an unsupported provider. -/
def unsupportedMsg (provider : String) : String :=
  "Provider " ++ String.mk [Char.ofNat 39] ++ provider ++ String.mk [Char.ofNat 39] ++
  " not supported."

/-- `validate_key(provider, api_key, azure_endpoint)` over an abstract HTTP
transport `http` mapping a request to a status code (`Except.error` models a
raised transport exception).  Returns the list of requests actually issued
together with the serialized result. -/
def validate_key (provider api_key : String) (azure_endpoint : Option String)
    (http : Request → Except String Nat) : List Request × VKResult :=
  if provider = "OpenAI" then
    let req : Request :=
      { url := "https://api.openai.com/v1/models",
        headers := [("Authorization", "Bearer " ++ api_key)] }
    match http req with
    | .ok st => ([req], .result provider (st == 200) st)
    | .error e => ([req], .error e)
  else if provider = "Anthropic" then
    let req : Request :=
      { url := "https://api.anthropic.com/v1/models",
        headers := [("x-api-key", api_key), ("anthropic-version", "2023-06-01")] }
    match http req with
    | .ok st => ([req], .result provider (st == 200) st)
    | .error e => ([req], .error e)
  else if provider = "Azure OpenAI" ∨ provider = "Azure OpenAI Key" then
    match azure_endpoint with
    | none => ([], .error "Azure requires an endpoint URL.")
    | some ep =>
      if ep = "" then ([], .error "Azure requires an endpoint URL.")
      else
        let req : Request :=
          { url := rstripSlash ep ++ "/openai/models?api-version=2024-02-01",
            headers := [("api-key", api_key)] }
        match http req with
        | .ok st => ([req], .result provider (st == 200) st)
        | .error e => ([req], .error e)
  else
    ([], .error (unsupportedMsg provider))

/-! ### Helper predicates and concrete inputs used by the claim theorems -/

/-- Is an aggregated entry a finding dict? -/
def isFindingEntry : ScanEntry → Bool
  | .finding _ => true
  | .readError _ => false

/-- Is an aggregated entry a read-error dict? -/
def isErrorEntry : ScanEntry → Bool
  | .finding _ => false
  | .readError _ => true

/-- An Anthropic-format credential: `sk-ant-api03-` followed by 50
underscore-free characters from `[A-Za-z0-9-]`. -/
def antKey : List Char := "sk-ant-api03-".data ++ List.replicate 50 'a'

/-- A root whose only entry is an eligible file that fails to read. -/
def c1tree : EntryList :=
  .ofList [.file "a.py".data (.error "Permission denied".data)]

/-- A root holding a directory named `__pycache__` that contains an eligible
file whose text is an Anthropic-format credential. -/
def c2tree : EntryList :=
  .ofList [.dir "__pycache__".data (.ofList [.file "x.py".data (.ok antKey)])]

/-- A root holding a subdirectory `sub` with an unreadable eligible file. -/
def c3tree : EntryList :=
  .ofList [.dir "sub".data (.ofList [.file "bad.py".data (.error "denied".data)])]

/-- A text holding a Google Gemini credential at offset 0 and an OpenAI
credential at offset 37. -/
def ce8text : List Char :=
  "AIzaSy".data ++ List.replicate 30 '0' ++ " sk-".data ++ List.replicate 40 'a'

/-! ### Shared traversal lemmas -/

/-- `walkFiles` distributes over concatenated listings. -/
theorem walkFiles_ofList_append (pre : List Char) (xs ys : List Entry) :
    walkFiles pre (.ofList (xs ++ ys)) =
      walkFiles pre (.ofList xs) ++ walkFiles pre (.ofList ys) := by
  induction xs with
  | nil => simp [EntryList.ofList, walkFiles]
  | cons e rest ih =>
    cases e <;> simp [EntryList.ofList, walkFiles, ih]

/-- `walkDirs` distributes over concatenated listings. -/
theorem walkDirs_ofList_append (pre : List Char) (xs ys : List Entry) :
    walkDirs pre (.ofList (xs ++ ys)) =
      walkDirs pre (.ofList xs) ++ walkDirs pre (.ofList ys) := by
  induction xs with
  | nil => simp [EntryList.ofList, walkDirs]
  | cons e rest ih =>
    simp [EntryList.ofList, walkDirs, ih]

/-! ### Claim C4 — the masking policy -/

/-- C4: for every string `v`, `mask_value v = v` when `v` has at most 12
characters, and `mask_value v` is the first 8 characters, a literal `...`,
and the last 4 characters (`v[-4:]`, i.e. `v.drop (v.length - 4)`) when `v`
is longer; `mask_value` is a pure function of its argument, so it is
deterministic by construction. -/
theorem c4_mask_value_spec (v : List Char) :
    (v.length ≤ 12 → mask_value v = v) ∧
    (12 < v.length →
      mask_value v = v.take 8 ++ "...".data ++ v.drop (v.length - 4)) := by
  constructor
  · intro h
    simp [mask_value, h]
  · intro h
    simp [mask_value, Nat.not_le.mpr h]

/-- Witness for C4 at a 19-character value. -/
theorem c4_mask_value_spec_witness :
    12 < "sk-0123456789ABCDEF".data.length ∧
    mask_value "sk-0123456789ABCDEF".data =
      "sk-0123456789ABCDEF".data.take 8 ++ "...".data ++
      "sk-0123456789ABCDEF".data.drop ("sk-0123456789ABCDEF".data.length - 4) :=
  ⟨by decide, (c4_mask_value_spec "sk-0123456789ABCDEF".data).2 (by decide)⟩

/-! ### Claim C9 — the OpenAI rule also matches Anthropic keys -/

/-- C9: the text consisting of the Anthropic-format credential
`sk-ant-api03-` followed by 50 underscore-free `[A-Za-z0-9-]` characters is
reported twice by the scan — at the same offset 0 with the same raw value,
once as provider OpenAI and once as provider Anthropic — because the OpenAI
rule `sk-[a-zA-Z0-9-]{40,}` also matches the whole key. -/
theorem c9_anthropic_key_reported_twice :
    perform_scan_pos antKey = [("OpenAI", 0, antKey), ("Anthropic", 0, antKey)] ∧
    perform_scan antKey "input" =
      [{ provider := "OpenAI", file := "input",
         masked_value := mask_value antKey, raw_value := antKey },
       { provider := "Anthropic", file := "input",
         masked_value := mask_value antKey, raw_value := antKey }] := by
  constructor <;> decide

/-! ### Claim C1 — what the reported total counts -/

/-- C1 counterexample: on a root whose only entry is an unreadable eligible
file, the reported total is 1 while the report holds 0 finding entries — the
read error is appended to the same findings list and counted, not kept in a
separate scan-error sequence. -/
theorem c1_total_mismatch_on_unreadable_file :
    (scan_directory c1tree).total = 1 ∧
    List.countP isFindingEntry (scan_directory c1tree).findings = 0 ∧
    (scan_directory c1tree).findings =
      [.readError "Read error in a.py: Permission denied".data] ∧
    ¬ ((scan_directory c1tree).total =
        List.countP isFindingEntry (scan_directory c1tree).findings) := by
  refine ⟨by decide, by decide, by decide, by decide⟩

/-- C1 as amended: the reported total equals the number of finding entries
plus the number of read-error entries, because read failures are appended to
the single aggregated findings list itself (there is no separate scan-error
sequence) and the total is that list's length. -/
theorem c1_total_counts_findings_and_errors (es : EntryList) :
    (scan_directory es).total =
      List.countP isFindingEntry (scan_directory es).findings +
      List.countP isErrorEntry (scan_directory es).findings := by
  have key : ∀ l : List ScanEntry,
      l.length = List.countP isFindingEntry l + List.countP isErrorEntry l := by
    intro l
    induction l with
    | nil => simp
    | cons a t ih =>
      cases a <;>
        simp [List.countP_cons, isFindingEntry, isErrorEntry, ih] <;> omega
  exact key (walkAll es)

/-! ### Claim C2 — the pruned directory names -/

/-- C2 counterexample: `__pycache__` belongs to the claimed six-name
exclusion set, yet the traversal enters a directory of that name, opens the
eligible file below it and reports its findings — the code prunes only
`.git`, `node_modules` and `venv`. -/
theorem c2_pycache_not_pruned :
    "__pycache__".data ∈
      [".git".data, "node_modules".data, "venv".data,
       "bin".data, "__pycache__".data, "dist".data] ∧
    openedAll c2tree = ["__pycache__/x.py".data] ∧
    (scan_directory c2tree).total = 2 := by
  refine ⟨by decide, by decide, by decide⟩

/-- C2 as amended: the exclusion set is `.git`, `node_modules` and `venv`
only; a directory whose base name is in that set is pruned from the walk —
it contributes no findings and no file below it is ever opened. -/
theorem c2_excluded_dirs_pruned (pre n : List Char) (cs : EntryList)
    (rest : EntryList) (h : n ∈ EXCLUDED_DIRS) :
    walkDirs pre (.cons (.dir n cs) rest) = walkDirs pre rest ∧
    openedDirs pre (.cons (.dir n cs) rest) = openedDirs pre rest ∧
    EXCLUDED_DIRS = [".git".data, "node_modules".data, "venv".data] := by
  refine ⟨?_, ?_, rfl⟩
  · simp [walkDirs, walkDirEntry, h]
  · simp [openedDirs, openedDirEntry, h]

/-- Witness for C2 as amended: a `.git` directory holding an eligible file
contributes nothing to the walk and nothing is opened below it. -/
theorem c2_excluded_dirs_pruned_witness :
    walkDirs [] (.cons (.dir ".git".data (.ofList [.file "k.py".data (.ok antKey)])) .nil) =
      walkDirs [] .nil ∧
    openedDirs [] (.cons (.dir ".git".data (.ofList [.file "k.py".data (.ok antKey)])) .nil) =
      openedDirs [] .nil :=
  ⟨(c2_excluded_dirs_pruned [] ".git".data _ .nil (by decide)).1,
   (c2_excluded_dirs_pruned [] ".git".data _ .nil (by decide)).2.1⟩

/-! ### Claim C3 — read-error isolation -/

/-- C3 counterexample: for an unreadable eligible file at root-relative path
`sub/bad.py`, the recorded error entry's message names only the base file
name `bad.py` — the root-relative path `sub/bad.py` (which the traversal
does compute, as the opened-path instrumentation shows) appears nowhere in
it, so the entry is not keyed by the path relative to the root. -/
theorem c3_error_not_keyed_by_relative_path :
    (scan_directory c3tree).findings =
      [.readError "Read error in bad.py: denied".data] ∧
    openedAll c3tree = ["sub/bad.py".data] ∧
    hasSub "sub/bad.py".data "Read error in bad.py: denied".data = false := by
  refine ⟨by decide, by decide, by decide⟩

/-- C3 as amended: an unreadable eligible file anywhere in a directory's
listing yields exactly one error entry — whose message is built from the
file's base name, not its root-relative path — and the traversal continues:
every other entry of the listing contributes exactly the findings it would
contribute without the bad file. -/
theorem c3_read_error_recorded_and_scan_continues (pre n e : List Char)
    (before after : List Entry) (h : extOk n = true) :
    walkFiles pre (.ofList (before ++ Entry.file n (.error e) :: after)) =
      walkFiles pre (.ofList before) ++
        ScanEntry.readError ("Read error in ".data ++ n ++ ": ".data ++ e) ::
        walkFiles pre (.ofList after) ∧
    walkDirs pre (.ofList (before ++ Entry.file n (.error e) :: after)) =
      walkDirs pre (.ofList (before ++ after)) := by
  constructor
  · rw [walkFiles_ofList_append]
    simp [EntryList.ofList, walkFiles, scanFile, h]
  · rw [walkDirs_ofList_append, walkDirs_ofList_append]
    simp [EntryList.ofList, walkDirs, walkDirEntry]

/-- Witness for C3 as amended: with the unreadable `bad.py` first and a
readable `ok.py` after it, the walk records the error entry and still
produces `ok.py`'s findings. -/
theorem c3_read_error_recorded_and_scan_continues_witness :
    extOk "bad.py".data = true ∧
    walkFiles [] (.ofList [Entry.file "bad.py".data (.error "denied".data),
                           Entry.file "ok.py".data (.ok antKey)]) =
      walkFiles [] (.ofList []) ++
        ScanEntry.readError
          ("Read error in ".data ++ "bad.py".data ++ ": ".data ++ "denied".data) ::
        walkFiles [] (.ofList [Entry.file "ok.py".data (.ok antKey)]) :=
  ⟨by decide,
   (c3_read_error_recorded_and_scan_continues [] "bad.py".data "denied".data
      [] [Entry.file "ok.py".data (.ok antKey)] (by decide)).1⟩

/-! ### Claim C5 — HTTP status classification of `validate_key` -/

/-- C5: for each supported provider, when the HTTP transport answers with
status `st`, the result records that status and sets `is_valid` to the
comparison `st == 200` — true exactly on HTTP 200, false on every other
status. -/
theorem c5_validate_key_http_200_classification (st : Nat) (key ep : String)
    (h : ep ≠ "") :
    ((validate_key "OpenAI" key none fun _ => .ok st).2 =
      .result "OpenAI" (st == 200) st) ∧
    ((validate_key "Anthropic" key none fun _ => .ok st).2 =
      .result "Anthropic" (st == 200) st) ∧
    ((validate_key "Azure OpenAI" key (some ep) fun _ => .ok st).2 =
      .result "Azure OpenAI" (st == 200) st) ∧
    ((validate_key "Azure OpenAI Key" key (some ep) fun _ => .ok st).2 =
      .result "Azure OpenAI Key" (st == 200) st) ∧
    ((st == 200) = true ↔ st = 200) := by
  refine ⟨?_, ?_, ?_, ?_, by simp⟩ <;> simp [validate_key, h]

/-- Witness for C5: a stubbed transport answering 401 yields
`is_valid = false` with status 401 recorded. -/
theorem c5_validate_key_http_200_classification_witness :
    (validate_key "OpenAI" "bad-key" none fun _ => .ok 401).2 =
      .result "OpenAI" false 401 := by
  have h := (c5_validate_key_http_200_classification 401 "bad-key" "e" (by decide)).1
  simpa using h

/-! ### Claim C6 — Azure validation without an endpoint -/

/-- C6: for both Azure provider names, an absent (`none`) or empty (`""`)
endpoint makes `validate_key` return the structured endpoint error having
issued no request at all — the request list is empty for every transport. -/
theorem c6_azure_missing_endpoint_no_request (key : String)
    (http : Request → Except String Nat) :
    validate_key "Azure OpenAI" key none http =
      ([], .error "Azure requires an endpoint URL.") ∧
    validate_key "Azure OpenAI" key (some "") http =
      ([], .error "Azure requires an endpoint URL.") ∧
    validate_key "Azure OpenAI Key" key none http =
      ([], .error "Azure requires an endpoint URL.") ∧
    validate_key "Azure OpenAI Key" key (some "") http =
      ([], .error "Azure requires an endpoint URL.") := by
  refine ⟨?_, ?_, ?_, ?_⟩ <;> simp [validate_key]

/-! ### Claim C7 — empty remote content is a fetch failure -/

/-- C7: when the dispatcher takes the remote branch and the sampled content
has fewer than 10 characters (in particular when it is empty), `smart_scan`
returns the explicit fetch-failure error and in particular never a remote
success with an empty findings list. -/
theorem c7_short_remote_content_is_fetch_failure (target : String)
    (content : List Char) (fs : EntryList)
    (hg : containsGithub target = true) (hlen : content.length < 10) :
    smart_scan target (.ok content) fs =
      .fetchFailed "Failed to fetch remote content." ∧
    ∀ fnd : List Finding, smart_scan target (.ok content) fs ≠ .remote fnd := by
  have h1 : smart_scan target (.ok content) fs =
      .fetchFailed "Failed to fetch remote content." := by
    simp [smart_scan, hg, hlen]
  refine ⟨h1, fun fnd heq => ?_⟩
  rw [h1] at heq
  exact SmartResult.noConfusion heq

/-- Witness for C7: a hosted-repository URL with an empty sampled text. -/
theorem c7_short_remote_content_is_fetch_failure_witness :
    containsGithub "https://github.com/x/y/blob/main/a.py" = true ∧
    smart_scan "https://github.com/x/y/blob/main/a.py" (.ok []) .nil =
      .fetchFailed "Failed to fetch remote content." :=
  ⟨by decide,
   (c7_short_remote_content_is_fetch_failure "https://github.com/x/y/blob/main/a.py"
      [] .nil (by decide) (by decide)).1⟩

/-! ### Claim C10 — the dispatch condition of `smart_scan` -/

/-- C10: `smart_scan` takes the remote branch exactly when the lowercased
target contains the substring `github.com`: in that case the result is never
a delegated `scan_directory` report, and otherwise it is exactly the
delegated `scan_directory` report — so a local path with `github.com` as a
path component is treated as remote. -/
theorem c10_smart_scan_dispatch_on_github_substring (target : String)
    (sample : Except String (List Char)) (fs : EntryList) :
    (containsGithub target = true →
      ∀ rep : DirReport, smart_scan target sample fs ≠ .localScan rep) ∧
    (containsGithub target = false →
      smart_scan target sample fs = .localScan (scan_directory fs)) := by
  constructor
  · intro hg rep
    simp only [smart_scan, hg, if_true]
    cases sample with
    | error e => simp
    | ok content =>
      by_cases hc : content = [] ∨ content.length < 10 <;> simp [hc]
  · intro hg
    simp [smart_scan, hg]

/-- Witness for C10: a purely local filesystem path whose components include
`github.com` satisfies the dispatch test, so it is never delegated to
`scan_directory`. -/
theorem c10_smart_scan_dispatch_on_github_substring_witness :
    containsGithub "/home/user/github.com/repo" = true ∧
    smart_scan "/home/user/github.com/repo" (.ok "x".data) .nil ≠
      .localScan (scan_directory .nil) :=
  ⟨by decide,
   (c10_smart_scan_dispatch_on_github_substring "/home/user/github.com/repo"
      (.ok "x".data) .nil).1 (by decide) (scan_directory .nil)⟩

/-! ### Claim C8 — the order findings are emitted in -/

/-- When the matcher consumes at least one character on every match, the
positions `scanFrom` emits are strictly increasing, and every emitted
position lies at or after the starting position. -/
theorem scanFrom_increasing (m : List Char → Option (Nat × List Char))
    (hm : ∀ s n r, m s = some (n, r) → 1 ≤ n) :
    ∀ (fuel : Nat) (s : List Char) (pos : Nat),
      List.Pairwise (fun x y => x.1 < y.1) (scanFrom m fuel s pos) ∧
      ∀ x ∈ scanFrom m fuel s pos, pos ≤ x.1 := by
  intro fuel
  induction fuel with
  | zero =>
    intro s pos
    simp [scanFrom]
  | succ fuel ih =>
    intro s pos
    cases s with
    | nil => simp [scanFrom]
    | cons c rest =>
      cases hms : m (c :: rest) with
      | none =>
        have h := ih rest (pos + 1)
        constructor
        · simpa [scanFrom, hms] using h.1
        · intro x hx
          simp only [scanFrom, hms] at hx
          have := h.2 x hx
          omega
      | some v =>
        obtain ⟨len, raw⟩ := v
        have hlen : 1 ≤ len := hm _ _ _ hms
        have h := ih ((c :: rest).drop len) (pos + len)
        constructor
        · simp only [scanFrom, hms]
          refine List.Pairwise.cons ?_ h.1
          intro y hy
          have h2 := h.2 y hy
          show pos < y.1
          omega
        · intro x hx
          simp only [scanFrom, hms, List.mem_cons] at hx
          rcases hx with hx | hx
          · simp [hx]
          · have := h.2 x hx
            omega

/-- A `matchSimple` match consumes at least the literal. -/
theorem matchSimple_length {lit : List Char} {cls : Char → Bool} {mn : Nat}
    {s : List Char} {n : Nat} {r : List Char}
    (h : matchSimple lit cls mn s = some (n, r)) : lit.length ≤ n := by
  simp only [matchSimple] at h
  repeat' split at h
  all_goals first
    | exact Option.noConfusion h
    | (have h2 := Prod.mk.inj (Option.some.inj h); omega)

/-- An Azure-key match consumes at least one character. -/
theorem matchAzureKey_length {s : List Char} {n : Nat} {r : List Char}
    (h : matchAzureKey s = some (n, r)) : 1 ≤ n := by
  simp only [matchAzureKey] at h
  repeat' split at h
  all_goals first
    | exact Option.noConfusion h
    | (have h2 := Prod.mk.inj (Option.some.inj h); omega)

/-- An Azure-endpoint match consumes at least one character. -/
theorem matchAzureEndpoint_length {s : List Char} {n : Nat} {r : List Char}
    (h : matchAzureEndpoint s = some (n, r)) : 1 ≤ n := by
  simp only [matchAzureEndpoint] at h
  repeat' split at h
  all_goals first
    | exact Option.noConfusion h
    | (have h2 := Prod.mk.inj (Option.some.inj h); omega)

/-- Every rule of the registry consumes at least one character on a match
(each regex requires a nonempty literal part). -/
theorem providerMatcher_consumes (p : Provider) :
    ∀ s n r, providerMatcher p s = some (n, r) → 1 ≤ n := by
  intro s n r h
  cases p with
  | openai =>
    simp only [providerMatcher, matchOpenAI] at h
    exact le_trans (by decide) (matchSimple_length h)
  | anthropic =>
    simp only [providerMatcher, matchAnthropic] at h
    exact le_trans (by decide) (matchSimple_length h)
  | gemini =>
    simp only [providerMatcher, matchGemini] at h
    exact le_trans (by decide) (matchSimple_length h)
  | azureKey =>
    simp only [providerMatcher] at h
    exact matchAzureKey_length h
  | azureEndpoint =>
    simp only [providerMatcher] at h
    exact matchAzureEndpoint_length h

/-- Within a single rule, `re.finditer` emits matches at strictly increasing
offsets. -/
theorem provider_matches_increasing (p : Provider) (text : List Char) :
    List.Pairwise (fun x y => x.1 < y.1) (provider_matches p text) := by
  unfold provider_matches findIter
  exact (scanFrom_increasing (providerMatcher p) (providerMatcher_consumes p)
    text.length text 0).1

/-- Tagged matches of rules with pairwise distinct names, concatenated in
rule order, are pairwise offset-increasing among entries of one provider. -/
theorem pairwise_tagged_flatMap (text : List Char) (ps : List Provider)
    (hdis : List.Pairwise (fun p q => providerName p ≠ providerName q) ps) :
    List.Pairwise (fun a b => a.1 = b.1 → a.2.1 < b.2.1)
      (ps.flatMap fun p =>
        (provider_matches p text).map fun m => (providerName p, m.1, m.2)) := by
  induction ps with
  | nil => simp
  | cons p ps ih =>
    rw [List.flatMap_cons, List.pairwise_append]
    rw [List.pairwise_cons] at hdis
    refine ⟨?_, ih hdis.2, ?_⟩
    · rw [List.pairwise_map]
      refine List.Pairwise.imp ?_ (provider_matches_increasing p text)
      intro a b h _
      exact h
    · intro a ha b hb
      rw [List.mem_map] at ha
      obtain ⟨x, -, rfl⟩ := ha
      rw [List.mem_flatMap] at hb
      obtain ⟨q, hq, hbq⟩ := hb
      rw [List.mem_map] at hbq
      obtain ⟨y, -, rfl⟩ := hbq
      intro heq
      exact absurd heq (hdis.1 q hq)

/-- C8 counterexample: on a text holding a Google Gemini credential at
offset 0 and an OpenAI credential at offset 37, the scan emits the OpenAI
finding first (registry order), so the emitted sequence is not ordered by
match-start offset. -/
theorem c8_offset_order_violated :
    perform_scan_pos ce8text =
      [("OpenAI", 37, "sk-".data ++ List.replicate 40 'a'),
       ("Google Gemini", 0, "AIzaSy".data ++ List.replicate 30 '0')] ∧
    ¬ List.Pairwise (fun a b : String × Nat × List Char => a.2.1 ≤ b.2.1)
        (perform_scan_pos ce8text) := by
  refine ⟨by decide, by decide⟩

/-- C8 as amended: findings are emitted grouped by rule in registry order
(OpenAI, Anthropic, Google Gemini, Azure OpenAI Key, Azure Endpoint); only
within one provider's group are matches ordered by increasing match-start
offset — two findings of the same provider appear in offset order, while
across different providers the offset order is not respected. -/
theorem c8_findings_grouped_by_provider (text : List Char) :
    List.Pairwise (fun a b => a.1 = b.1 → a.2.1 < b.2.1)
      (perform_scan_pos text) := by
  unfold perform_scan_pos
  exact pairwise_tagged_flatMap text PATTERNS_ORDER (by decide)

end MCPSec
